import Mathlib

/-!
Verification of the natal-chart server (src/server.py).

Numeric model: Python floats are embedded as rationals (ℚ), Python ints as ℤ.
Python `x % m` on floats (result has the sign of the divisor) is embedded as
`x - m * ⌊x / m⌋`, `x // m` as `⌊x / m⌋`, and `%` on ints with a positive
divisor as `Int.emod` (both are in `[0, m)` for `m > 0`).
Fallible Python code (exceptions) is embedded with `Option` / `Except`.
-/

namespace Astro

/-- The fixed 12-name zodiac sign table, zodiacal order starting at Aries
(server.py lines 22-25). -/
def SIGN_NAMES : List String :=
  ["Aries", "Taurus", "Gemini", "Cancer", "Leo", "Virgo",
   "Libra", "Scorpio", "Sagittarius", "Capricorn", "Aquarius", "Pisces"]

/-- Python floor division `x // m` of a float `x` by a positive integer
modulus `m`, then `int(...)` truncation: the quotient is already integral so
`int` is the identity and the combined value is `⌊x / m⌋`. (Expressed through
`Int.fdiv` on the numerator and denominator so that it evaluates by kernel
reduction; `pyFloorDiv_eq_floor` identifies it with the floor of the true
quotient. The server only ever divides by the positive constants 30 and 360.) -/
def pyFloorDiv (x : ℚ) (m : ℤ) : ℤ := x.num.fdiv (m * x.den)

/-- Python float modulo `x % m` for a positive integer modulus `m`: the
result has the sign of the divisor, `x % m = x - m * floor(x / m)`
(see `pymod_eq`); written over a common denominator with `Rat.divInt` so
that it evaluates by kernel reduction. -/
def pymod (x : ℚ) (m : ℤ) : ℚ :=
  Rat.divInt (x.num - m * pyFloorDiv x m * x.den) x.den

/-- `wrap360(x) = x % 360.0` (server.py lines 27-28). -/
def wrap360 (x : ℚ) : ℚ := pymod x 360

/-- Python list indexing `xs[i]`: a negative index within `-len .. -1` wraps
to `len + i`; anything else out of range raises `IndexError` (`none` here). -/
def pyListGet (xs : List String) (i : ℤ) : Option String :=
  if 0 ≤ i then xs.get? i.toNat
  else if -(xs.length : ℤ) ≤ i then xs.get? (xs.length - (-i).toNat)
  else none

/-- `sign_of(lon) = SIGN_NAMES[int(lon // 30)]` (server.py lines 30-31);
`none` models the `IndexError` raised when the index is out of range. -/
def sign_of (lon : ℚ) : Option String := pyListGet SIGN_NAMES (pyFloorDiv lon 30)

/-- The house-number formula of `whole_sign_house` on sign indices:
`((body_sign - asc_sign + 12) % 12) + 1` (Python `%` on ints with positive
divisor is `Int.emod`). -/
def houseOfSign (bodySign ascSign : ℤ) : ℤ :=
  ((bodySign - ascSign + 12) % 12) + 1

/-- `whole_sign_house(lon, asc)` (server.py lines 33-36):
`asc_sign = int(asc // 30)`, `body_sign = int(lon // 30)`,
`((body_sign - asc_sign + 12) % 12) + 1`. -/
def whole_sign_house (lon asc : ℚ) : ℤ :=
  houseOfSign (pyFloorDiv lon 30) (pyFloorDiv asc 30)

/-- The degree-within-sign computation `lon % 30` used inline at
server.py lines 58 and 190. -/
def degreeInSign (lon : ℚ) : ℚ := pymod lon 30

/-! ## Civil-time parsing (server.py lines 93-95) -/

/-- Python `str.split(sep)` for a one-character separator: splits at every
occurrence of `sep`, keeping empty pieces. -/
def splitOnChar (sep : Char) : List Char → List (List Char)
  | [] => [[]]
  | c :: rest =>
    match splitOnChar sep rest with
    | [] => [[c]]
    | g :: gs => if c = sep then [] :: g :: gs else (c :: g) :: gs

/-- The value of a nonempty all-digit string under Python `int`. -/
def digitsToNat (cs : List Char) : Option ℕ :=
  if cs ≠ [] ∧ cs.all Char.isDigit then
    some (cs.foldl (fun a c => 10 * a + (c.toNat - 48)) 0)
  else none

/-- Python `int(s)` on the string shapes this server feeds it: an optional
sign followed by decimal digits; anything else (e.g. `"12.30"`, `""`) raises
`ValueError`, modelled as `none`. -/
def pyInt (cs : List Char) : Option ℤ :=
  match cs with
  | '-' :: rest => (digitsToNat rest).map (fun n => -(n : ℤ))
  | '+' :: rest => (digitsToNat rest).map (fun n => (n : ℤ))
  | _ => (digitsToNat cs).map (fun n => (n : ℤ))

/-- `year, month, day = map(int, date_str.split("-"))` (server.py line 94):
requires exactly three `-`-separated components, each an `int`;
unpacking or conversion failure raises `ValueError` (`none`). -/
def parseDate (s : String) : Option (ℤ × ℤ × ℤ) :=
  match (splitOnChar '-' s.data).map pyInt with
  | [some y, some m, some d] => some (y, m, d)
  | _ => none

/-- `hour, minute = map(int, time_str.split(":"))` (server.py line 95):
requires exactly two `:`-separated components, each an `int`;
unpacking or conversion failure raises `ValueError` (`none`). -/
def parseTime (s : String) : Option (ℤ × ℤ) :=
  match (splitOnChar ':' s.data).map pyInt with
  | [some h, some mi] => some (h, mi)
  | _ => none

/-! ## Proleptic-Gregorian calendar arithmetic, as used by Python
`datetime` (epoch 1970-01-01, Hinnant's civil-calendar algorithms). -/

def isLeap (y : ℤ) : Bool := (y % 4 == 0 && y % 100 != 0) || y % 400 == 0

def daysInMonth (y m : ℤ) : ℤ :=
  if m = 2 then (if isLeap y then 29 else 28)
  else if m = 4 ∨ m = 6 ∨ m = 9 ∨ m = 11 then 30
  else 31

/-- The range validation performed by the `datetime(year, month, day, hour,
minute)` constructor (server.py line 113): out-of-range fields raise
`ValueError`. -/
def datetimeValid (y m d h mi : ℤ) : Bool :=
  1 ≤ y && y ≤ 9999 && 1 ≤ m && m ≤ 12 && 1 ≤ d && d ≤ daysInMonth y m &&
  0 ≤ h && h ≤ 23 && 0 ≤ mi && mi ≤ 59

/-- Days from 1970-01-01 to the given proleptic-Gregorian civil date. -/
def daysFromCivil (y m d : ℤ) : ℤ :=
  let y' := if m ≤ 2 then y - 1 else y
  let era := y'.fdiv 400
  let yoe := y' - era * 400
  let mp := (m + 9).emod 12
  let doy := (153 * mp + 2).fdiv 5 + d - 1
  let doe := yoe * 365 + yoe.fdiv 4 - yoe.fdiv 100 + doy
  era * 146097 + doe - 719468

/-- The civil date of the day `z` days after 1970-01-01 (inverse of
`daysFromCivil`). -/
def civilFromDays (z : ℤ) : ℤ × ℤ × ℤ :=
  let z' := z + 719468
  let era := z'.fdiv 146097
  let doe := z' - era * 146097
  let yoe := (doe - doe.fdiv 1460 + doe.fdiv 36524 - doe.fdiv 146096).fdiv 365
  let y := yoe + era * 400
  let doy := doe - (365 * yoe + yoe.fdiv 4 - yoe.fdiv 100)
  let mp := (5 * doy + 2).fdiv 153
  let d := doy - (153 * mp + 2).fdiv 5 + 1
  let m := if mp < 10 then mp + 3 else mp - 9
  (if m ≤ 2 then y + 1 else y, m, d)

/-- The naive local `datetime(y, m, d, h, mi)`, measured in minutes from the
1970-01-01 00:00 epoch of the same (zone-less) clock. -/
def naiveMinutes (y m d h mi : ℤ) : ℤ :=
  daysFromCivil y m d * 1440 + h * 60 + mi

/-! ## The pytz timezone collaborator (server.py lines 110-131).
`TzInfo` models a named zone around one DST season: a standard UTC offset,
a DST shift, and the UTC instants at which DST begins and ends.  `localize`
with `is_dst=None` raises on ambiguous or non-existent wall-clock times;
with an explicit flag it picks the single valid interpretation when there
is one and otherwise uses the flag.  All times are in minutes. -/

structure TzInfo where
  name : String
  /-- UTC offset in minutes, outside DST. -/
  stdOffset : ℤ
  /-- Additional offset in minutes while DST is in effect. -/
  dstShift : ℤ
  /-- UTC minute at which DST begins. -/
  dstStartUtc : ℤ
  /-- UTC minute at which DST ends. -/
  dstEndUtc : ℤ

/-- Whether DST is in effect at the UTC instant `u`. -/
def dstActive (z : TzInfo) (u : ℤ) : Bool := z.dstStartUtc ≤ u && u < z.dstEndUtc

/-- Whether reading the naive wall-clock time as standard time is
consistent: the resulting UTC instant must lie outside DST. -/
def validStd (z : TzInfo) (naive : ℤ) : Bool := !(dstActive z (naive - z.stdOffset))

/-- Whether reading the naive wall-clock time as daylight time is
consistent: the resulting UTC instant must lie inside DST. -/
def validDst (z : TzInfo) (naive : ℤ) : Bool :=
  dstActive z (naive - (z.stdOffset + z.dstShift))

inductive LocalizeErr where
  | ambiguousTime
  | nonExistentTime
deriving DecidableEq

/-- `tz.localize(naive, is_dst=None)`: raises `AmbiguousTimeError` when both
interpretations are consistent (a repeated fall-back hour),
`NonExistentTimeError` when neither is (a skipped spring-forward hour), and
otherwise returns the offset (minutes) of the single valid interpretation. -/
def localizeNone (z : TzInfo) (naive : ℤ) : Except LocalizeErr ℤ :=
  if validStd z naive && validDst z naive then .error .ambiguousTime
  else if !validStd z naive && !validDst z naive then .error .nonExistentTime
  else .ok (if validDst z naive then z.stdOffset + z.dstShift else z.stdOffset)

/-- `tz.localize(naive, is_dst=flag)`: the single valid interpretation when
there is exactly one; otherwise the flag chooses daylight or standard. -/
def localizeFlag (z : TzInfo) (naive : ℤ) (isDst : Bool) : ℤ :=
  if validStd z naive && !(validDst z naive) then z.stdOffset
  else if validDst z naive && !(validStd z naive) then z.stdOffset + z.dstShift
  else if isDst then z.stdOffset + z.dstShift else z.stdOffset

/-! ## The external collaborators (spec §6) and the converter
(server.py lines 85-140). -/

/-- The opaque collaborators: the timezone lookup `tf.timezone_at`
(returning a zone's rule data, or `none`), the Swiss Ephemeris Julian-Day
formula `swe.julday(year, month, day, fractional_hour)`, the body-position
call `swe.calc_ut(jd_ut, planet_id)` (first component of the returned
longitude tuple) and the houses call `swe.houses(jd_ut, lat, lon, code)`
(returning the raw ascendant and the 12 cusp longitudes).  They are
parameters of the embedding: every theorem below holds for all of them. -/
structure Collab where
  zoneAt : ℚ → ℚ → Option TzInfo
  julday : ℤ → ℤ → ℤ → ℚ → ℚ
  calc_ut : ℚ → ℤ → ℚ
  housesFn : ℚ → ℚ → ℚ → ℚ × (ℤ → ℚ)

/-- The Python exceptions that can escape `compute_jd_ut_with_timezone`. -/
inductive PyErr where
  | valueError
  | nameError
deriving DecidableEq

/-- `hour_ut = hour - (fallback_tz_minutes / 60.0)` (server.py line 106),
written over a common denominator with `Rat.divInt` so that it evaluates by
kernel reduction; `fallbackHourUt_eq` gives the `hour - fb/60` form. -/
def fallbackHourUt (hour : ℤ) (fb : ℚ) : ℚ :=
  Rat.divInt (hour * 60 * fb.den - fb.num) (60 * fb.den)

/-- `ut_hour = utc_dt.hour + utc_dt.minute / 60.0 + utc_dt.second / 3600.0`
(server.py line 134), over a common denominator; `utHour_eq` gives the
`h + mi/60 + s/3600` form. -/
def utHour (h mi s : ℤ) : ℚ := Rat.divInt (h * 3600 + mi * 60 + s) 3600

/-- Steps 4-6 of the named-zone path (server.py lines 127-136): convert the
UTC instant `u` (minutes since epoch) to calendar fields and call
`swe.julday` on them with the fractional UT hour.  The seconds field is
always 0: the naive datetime is built from hour and minute only and the
zone offsets are whole minutes. -/
def jdOfUtcMin (c : Collab) (u : ℤ) : ℚ :=
  let ymd := civilFromDays (u.fdiv 1440)
  let rem := u.emod 1440
  c.julday ymd.1 ymd.2.1 ymd.2.2 (utHour (rem.fdiv 60) (rem.emod 60) 0)

/-- `compute_jd_ut_with_timezone(date_str, time_str, lat, lon,
fallback_tz_minutes)` (server.py lines 85-140).  Parse the date and time;
look the zone up from the coordinates; on lookup failure take the
fixed-offset fallback path (offset `fallback_tz_minutes` or 0, zone name
`"Etc/UTC (fallback)"`); otherwise build the naive datetime (validating
field ranges), localize it under the zone's DST rules — standard time on
`AmbiguousTimeError` — and convert to UTC and a Julian Day.  On
`NonExistentTimeError` the handler at line 123 evaluates `timedelta`,
a name that is never imported (line 8 imports only `datetime` from the
`datetime` module), so the handler itself raises `NameError`. -/
def compute_jd_ut_with_timezone (c : Collab) (date_str time_str : String)
    (lat lon : ℚ) (fallback_tz_minutes : Option ℚ) :
    Except PyErr (ℚ × ℚ × String) :=
  match parseDate date_str with
  | none => .error .valueError
  | some (year, month, day) =>
    match parseTime time_str with
    | none => .error .valueError
    | some (hour, minute) =>
      match c.zoneAt lat lon with
      | none =>
          let fb := fallback_tz_minutes.getD 0
          .ok (c.julday year month day (fallbackHourUt hour fb), fb,
               "Etc/UTC (fallback)")
      | some z =>
          if datetimeValid year month day hour minute then
            let naive := naiveMinutes year month day hour minute
            match localizeNone z naive with
            | .ok off => .ok (jdOfUtcMin c (naive - off), (off : ℚ), z.name)
            | .error .ambiguousTime =>
                let off := localizeFlag z naive false
                .ok (jdOfUtcMin c (naive - off), (off : ℚ), z.name)
            | .error .nonExistentTime => .error .nameError
          else .error .valueError

/-! ## Planets, houses and chart assembly (server.py lines 40-79, 150-205). -/

/-- The tracked bodies and their Swiss Ephemeris identifiers
(server.py lines 40-48). -/
def PLANETS : List (String × ℤ) :=
  [("sun", 0), ("moon", 1), ("mercury", 2), ("venus", 3), ("mars", 4),
   ("jupiter", 5), ("saturn", 6)]

/-- One body's entry of `compute_planet_longitudes` (server.py lines 50-60):
name, normalized longitude, sign, degree-in-sign. -/
def compute_planet_longitudes (c : Collab) (jd_ut : ℚ) :
    List (String × ℚ × Option String × ℚ) :=
  PLANETS.map (fun p =>
    let lon := wrap360 (c.calc_ut jd_ut p.2)
    (p.1, lon, sign_of lon, pymod lon 30))

structure HouseEntry where
  house : ℤ
  cuspLongitude : ℚ
  sign : Option String
deriving DecidableEq

/-- `compute_ascendant_and_houses` (server.py lines 64-79): normalized
ascendant longitude and the 12 cusp entries. -/
def compute_ascendant_and_houses (c : Collab) (jd_ut lat lon : ℚ) :
    ℚ × List HouseEntry :=
  let res := c.housesFn jd_ut lat lon
  let asc_lon := wrap360 res.1
  (asc_lon,
   (List.range 12).map (fun h =>
     let cv := wrap360 (res.2 h)
     { house := (h : ℤ) + 1, cuspLongitude := cv, sign := sign_of cv }))

structure BodyPos where
  longitude : ℚ
  sign : Option String
  degreeInSign : ℚ
  house : ℤ
deriving DecidableEq

structure Chart where
  ascLongitude : ℚ
  ascSign : Option String
  ascDegreeInSign : ℚ
  houses : List HouseEntry
  planets : List (String × BodyPos)
  tzName : String
  offsetMinutes : ℚ
deriving DecidableEq

/-- The `/chart/natal` handler body after field extraction
(server.py lines 179-205): compute the Julian Day, the planet positions and
the houses, attach whole-sign house numbers to the planets, and assemble
the response.  An exception escaping `compute_jd_ut_with_timezone` is not
caught by the handler's `try` (lines 164-170 wrap only field extraction),
so it propagates as the `.error` case. -/
def chart_natal (c : Collab) (date time : String) (lat lon : ℚ)
    (timezoneOffsetMinutes : Option ℚ) : Except PyErr Chart :=
  match compute_jd_ut_with_timezone c date time lat lon timezoneOffsetMinutes with
  | .error e => .error e
  | .ok (jd_ut, offMinutes, tzName) =>
    let planets := compute_planet_longitudes c jd_ut
    let ah := compute_ascendant_and_houses c jd_ut lat lon
    .ok { ascLongitude := ah.1, ascSign := sign_of ah.1,
          ascDegreeInSign := pymod ah.1 30,
          houses := ah.2,
          planets := planets.map (fun p =>
            (p.1, { longitude := p.2.1, sign := p.2.2.1,
                    degreeInSign := p.2.2.2,
                    house := whole_sign_house p.2.1 ah.1 })),
          tzName := tzName, offsetMinutes := offMinutes }

/-! ## Concrete fixtures used by witnesses and counterexamples. -/

/-- A concrete stand-in for `swe.julday` in closed evaluations: hours since
1970-01-01 00:00 UT of the given calendar moment (strictly monotone in the
instant, so distinct instants give distinct values). -/
def juldayHours (y m d : ℤ) (h : ℚ) : ℚ :=
  Rat.divInt (daysFromCivil y m d * 24 * h.den + h.num) h.den

/-- `America/New_York` around its 2023 DST season: standard offset
UTC-5:00, DST shift +60 min, DST from 2023-03-12 07:00 UTC to
2023-11-05 06:00 UTC. -/
def nyZone2023 : TzInfo :=
  { name := "America/New_York", stdOffset := -300, dstShift := 60,
    dstStartUtc := daysFromCivil 2023 3 12 * 1440 + 7 * 60,
    dstEndUtc := daysFromCivil 2023 11 5 * 1440 + 6 * 60 }

/-- A collaborator whose zone lookup always finds `nyZone2023`. -/
def nyCollab : Collab :=
  { zoneAt := fun _ _ => some nyZone2023, julday := juldayHours,
    calc_ut := fun _ _ => 0, housesFn := fun _ _ _ => (0, fun _ => 0) }

/-- A collaborator whose zone lookup finds nothing (ocean coordinates). -/
def noZoneCollab : Collab :=
  { zoneAt := fun _ _ => none, julday := juldayHours,
    calc_ut := fun _ _ => 0, housesFn := fun _ _ _ => (0, fun _ => 0) }

deriving instance DecidableEq for Except

/-! ## Shared lemmas -/

/-- `Int.fdiv` by a positive divisor is the floor of the rational quotient. -/
theorem intFdiv_eq_floor (a b : ℤ) (hb : 0 < b) : a.fdiv b = ⌊(a : ℚ) / (b : ℚ)⌋ := by
  have hmod₀ : 0 ≤ a.fmod b := Int.fmod_nonneg' a (by omega)
  have hmod₁ : a.fmod b < b := Int.fmod_lt_of_pos a hb
  have hsum : b * a.fdiv b + a.fmod b = a := Int.fdiv_add_fmod a b
  have hbQ : (0 : ℚ) < (b : ℚ) := by exact_mod_cast hb
  symm
  rw [Int.floor_eq_iff]
  constructor
  · rw [le_div_iff₀ hbQ]
    have h : (a.fdiv b * b : ℤ) ≤ a := by nlinarith
    exact_mod_cast h
  · rw [div_lt_iff₀ hbQ]
    have h : a < ((a.fdiv b + 1) * b : ℤ) := by nlinarith
    have h' : (a : ℚ) < ((a.fdiv b + 1 : ℤ) : ℚ) * (b : ℚ) := by exact_mod_cast h
    push_cast at h' ⊢
    linarith

/-- The numerator of a rational, as the rational times its denominator. -/
theorem rat_num_eq (x : ℚ) : (x.num : ℚ) = x * (x.den : ℚ) := by
  have hd : ((x.den : ℚ)) ≠ 0 := by
    have := x.pos
    positivity
  have h := Rat.num_div_den x
  rw [div_eq_iff hd] at h
  exact h

theorem pyFloorDiv_eq_floor (x : ℚ) (m : ℤ) (hm : 0 < m) :
    pyFloorDiv x m = ⌊x / (m : ℚ)⌋ := by
  have hden : 0 < (x.den : ℤ) := by exact_mod_cast x.pos
  rw [pyFloorDiv, intFdiv_eq_floor _ _ (by positivity)]
  congr 1
  have hmQ : (0 : ℚ) < (m : ℚ) := by exact_mod_cast hm
  have hdQ : (0 : ℚ) < (x.den : ℚ) := by exact_mod_cast x.pos
  push_cast
  rw [div_eq_div_iff (by positivity) (by positivity), rat_num_eq x]
  ring

theorem pymod_eq (x : ℚ) (m : ℤ) (hm : 0 < m) :
    pymod x m = x - (m : ℚ) * ⌊x / (m : ℚ)⌋ := by
  have hdQ : (0 : ℚ) < (x.den : ℚ) := by exact_mod_cast x.pos
  rw [pymod, pyFloorDiv_eq_floor x m hm, Rat.divInt_eq_div]
  push_cast
  rw [div_eq_iff (by positivity), rat_num_eq x]
  ring

theorem pymod_bounds (x : ℚ) (m : ℤ) (hm : 0 < m) :
    0 ≤ pymod x m ∧ pymod x m < m := by
  have hmQ : (0 : ℚ) < (m : ℚ) := by exact_mod_cast hm
  rw [pymod_eq x m hm]
  have h1 : (⌊x / (m : ℚ)⌋ : ℚ) ≤ x / (m : ℚ) := Int.floor_le _
  have h2 : x / (m : ℚ) < ⌊x / (m : ℚ)⌋ + 1 := Int.lt_floor_add_one _
  constructor
  · have h3 := (le_div_iff₀ hmQ).mp h1
    linarith
  · have h4 := (div_lt_iff₀ hmQ).mp h2
    linarith

theorem signIdx_bounds (L : ℚ) (h0 : 0 ≤ L) (h1 : L < 360) :
    0 ≤ pyFloorDiv L 30 ∧ pyFloorDiv L 30 ≤ 11 := by
  rw [pyFloorDiv_eq_floor L 30 (by norm_num),
    (by norm_num : (((30:ℤ)):ℚ) = (30:ℚ))]
  constructor
  · exact Int.le_floor.mpr (by push_cast; exact div_nonneg h0 (by norm_num))
  · have h2 : ⌊L / (30 : ℚ)⌋ < 12 := by
      apply Int.floor_lt.mpr
      rw [div_lt_iff₀ (by norm_num : (0:ℚ) < 30)]
      push_cast
      linarith
    omega

theorem houseOfSign_bounds (s a : ℤ) :
    1 ≤ houseOfSign s a ∧ houseOfSign s a ≤ 12 := by
  rw [houseOfSign]
  omega

theorem fallbackHourUt_eq (hour : ℤ) (fb : ℚ) :
    fallbackHourUt hour fb = (hour : ℚ) - fb / 60 := by
  have hd0 : (0 : ℚ) < (fb.den : ℚ) := by exact_mod_cast fb.pos
  rw [fallbackHourUt, Rat.divInt_eq_div]
  push_cast
  rw [div_eq_iff (mul_ne_zero (by norm_num) (ne_of_gt hd0)), rat_num_eq fb]
  ring

theorem utHour_eq (h mi s : ℤ) :
    utHour h mi s = (h : ℚ) + (mi : ℚ) / 60 + (s : ℚ) / 3600 := by
  rw [utHour, Rat.divInt_eq_div]
  push_cast
  rw [div_eq_iff (by norm_num : (3600 : ℚ) ≠ 0)]
  ring

/-! ## The claims -/

/-- C4: for every real longitude `L` (negative and out-of-range included),
`wrap360 L` lies in `[0, 360)` and is congruent to `L` modulo 360. -/
theorem wrap360_range_congruent (L : ℚ) :
    0 ≤ wrap360 L ∧ wrap360 L < 360 ∧ ∃ k : ℤ, L - wrap360 L = 360 * k := by
  obtain ⟨h0, h1⟩ := pymod_bounds L 360 (by norm_num)
  refine ⟨h0, by exact_mod_cast h1, ⟨⌊L / ((360 : ℤ) : ℚ)⌋, ?_⟩⟩
  rw [wrap360, pymod_eq L 360 (by norm_num)]
  push_cast
  ring

/-- C5: for every normalized longitude `L ∈ [0, 360)`, the sign index
`int(L // 30)` and the degree `L % 30` recompose to `L` exactly, the degree
lies in `[0, 30)`, and the sign is the entry of the fixed 12-name table
(`SIGN_NAMES`, zodiacal order starting at Aries) selected by the index:
a longitude in the band `[30*i, 30*(i+1))` gets the table's `i`-th name. -/
theorem sign_degree_decomposition (L : ℚ) (h0 : 0 ≤ L) (h1 : L < 360) :
    ((pyFloorDiv L 30 : ℤ) : ℚ) * 30 + degreeInSign L = L
    ∧ 0 ≤ degreeInSign L ∧ degreeInSign L < 30
    ∧ sign_of L = SIGN_NAMES.get? (pyFloorDiv L 30).toNat
    ∧ ∀ i : ℕ, (i : ℚ) * 30 ≤ L → L < ((i : ℚ) + 1) * 30 →
        sign_of L = SIGN_NAMES.get? i := by
  obtain ⟨hd0, hd1⟩ := pymod_bounds L 30 (by norm_num)
  obtain ⟨hi0, _⟩ := signIdx_bounds L h0 h1
  refine ⟨?_, hd0, by exact_mod_cast hd1, ?_, ?_⟩
  · rw [degreeInSign, pymod_eq L 30 (by norm_num),
      pyFloorDiv_eq_floor L 30 (by norm_num)]
    push_cast
    ring
  · rw [sign_of, pyListGet, if_pos hi0]
  · intro i hlo hhi
    have hidx : pyFloorDiv L 30 = (i : ℤ) := by
      rw [pyFloorDiv_eq_floor L 30 (by norm_num)]
      apply Int.floor_eq_iff.mpr
      constructor
      · rw [le_div_iff₀ (by norm_num : (0:ℚ) < ((30:ℤ):ℚ))]
        push_cast
        linarith
      · rw [div_lt_iff₀ (by norm_num : (0:ℚ) < ((30:ℤ):ℚ))]
        push_cast
        linarith
    rw [sign_of, pyListGet, if_pos (by rw [hidx]; exact Int.ofNat_nonneg i), hidx]
    simp

/-- C5 witness at the concrete longitude 45. -/
theorem sign_degree_decomposition_witness :
    (0 : ℚ) ≤ 45 ∧ (45 : ℚ) < 360 ∧
    (((pyFloorDiv 45 30 : ℤ) : ℚ) * 30 + degreeInSign 45 = 45
    ∧ 0 ≤ degreeInSign 45 ∧ degreeInSign 45 < 30
    ∧ sign_of 45 = SIGN_NAMES.get? (pyFloorDiv 45 30).toNat
    ∧ ∀ i : ℕ, (i : ℚ) * 30 ≤ 45 → (45 : ℚ) < ((i : ℚ) + 1) * 30 →
        sign_of 45 = SIGN_NAMES.get? i) :=
  ⟨by decide, by decide, sign_degree_decomposition 45 (by decide) (by decide)⟩

/-- C3: for normalized body and ascendant longitudes, `whole_sign_house` is
the formula `((signIndexOfBody - signIndexOfAscendant + 12) % 12) + 1`; for
a fixed ascendant the induced map on sign indices is a bijection from the
12 signs onto house numbers 1-12; and a body in the ascendant's sign is in
house 1. -/
theorem whole_sign_house_formula_bijection (lon asc : ℚ)
    (hl0 : 0 ≤ lon) (hl1 : lon < 360) (ha0 : 0 ≤ asc) (ha1 : asc < 360) :
    whole_sign_house lon asc
      = ((pyFloorDiv lon 30 - pyFloorDiv asc 30 + 12) % 12) + 1
    ∧ Set.BijOn (fun s : ℤ => houseOfSign s (pyFloorDiv asc 30))
        (Set.Icc 0 11) (Set.Icc 1 12)
    ∧ (pyFloorDiv lon 30 = pyFloorDiv asc 30 → whole_sign_house lon asc = 1) := by
  refine ⟨rfl, ⟨?_, ?_, ?_⟩, ?_⟩
  · intro s _
    simp only [Set.mem_Icc, houseOfSign]
    omega
  · intro s1 h1 s2 h2 heq
    simp only [Set.mem_Icc] at h1 h2
    simp only [houseOfSign] at heq
    omega
  · intro h hh
    simp only [Set.mem_Icc] at hh
    refine ⟨(pyFloorDiv asc 30 + h - 1) % 12, ?_, ?_⟩
    · simp only [Set.mem_Icc]
      omega
    · simp only [houseOfSign]
      omega
  · intro heq
    rw [whole_sign_house, heq, houseOfSign]
    omega

/-- C3 witness at longitude 45 (Taurus) and ascendant 200 (Libra). -/
theorem whole_sign_house_formula_bijection_witness :
    (0 : ℚ) ≤ 45 ∧ (45 : ℚ) < 360 ∧ (0 : ℚ) ≤ 200 ∧ (200 : ℚ) < 360 ∧
    (whole_sign_house 45 200
      = ((pyFloorDiv 45 30 - pyFloorDiv 200 30 + 12) % 12) + 1
    ∧ Set.BijOn (fun s : ℤ => houseOfSign s (pyFloorDiv 200 30))
        (Set.Icc 0 11) (Set.Icc 1 12)
    ∧ (pyFloorDiv 45 30 = pyFloorDiv 200 30 → whole_sign_house 45 200 = 1)) :=
  ⟨by decide, by decide, by decide, by decide,
   whole_sign_house_formula_bijection 45 200
     (by decide) (by decide) (by decide) (by decide)⟩

/-- C10: for any raw longitudes, after `wrap360` normalization the sign
table index `int(lon // 30)` lies in `[0, 11]` (so the 12-entry lookup
cannot go out of bounds) and `whole_sign_house` returns a value in
`[1, 12]`. -/
theorem normalized_lookup_safety (x y : ℚ) :
    0 ≤ pyFloorDiv (wrap360 x) 30 ∧ pyFloorDiv (wrap360 x) 30 ≤ 11
    ∧ (sign_of (wrap360 x)).isSome = true
    ∧ 1 ≤ whole_sign_house (wrap360 x) (wrap360 y)
    ∧ whole_sign_house (wrap360 x) (wrap360 y) ≤ 12 := by
  obtain ⟨hw0, hw1⟩ := pymod_bounds x 360 (by norm_num)
  obtain ⟨hi0, hi1⟩ :=
    signIdx_bounds (wrap360 x) hw0 (by exact_mod_cast hw1)
  refine ⟨hi0, hi1, ?_, ?_⟩
  · rw [sign_of, pyListGet, if_pos hi0]
    cases hg : SIGN_NAMES.get? (pyFloorDiv (wrap360 x) 30).toNat with
    | none =>
      rw [List.get?_eq_none] at hg
      simp only [SIGN_NAMES, List.length] at hg
      omega
    | some s => rfl
  · rw [whole_sign_house]
    exact houseOfSign_bounds _ _

/-- C2: a civil moment that is ambiguous in the resolved zone (both the
standard and the daylight reading are consistent — the repeated fall-back
hour) is resolved to the standard-time interpretation: the returned offset
is the zone's standard offset and the Julian Day is computed from the UTC
instant `naive - stdOffset`; with a positive DST shift the standard offset
is strictly smaller than the daylight one, so the daylight interpretation
is never taken. -/
theorem ambiguous_time_resolves_to_standard
    (c : Collab) (z : TzInfo) (ds ts : String) (y m d h mi : ℤ)
    (lat lon : ℚ) (fb : Option ℚ)
    (hd : parseDate ds = some (y, m, d))
    (ht : parseTime ts = some (h, mi))
    (hz : c.zoneAt lat lon = some z)
    (hv : datetimeValid y m d h mi = true)
    (hstd : validStd z (naiveMinutes y m d h mi) = true)
    (hdst : validDst z (naiveMinutes y m d h mi) = true)
    (hshift : 0 < z.dstShift) :
    compute_jd_ut_with_timezone c ds ts lat lon fb
      = .ok (jdOfUtcMin c (naiveMinutes y m d h mi - z.stdOffset),
             (z.stdOffset : ℚ), z.name)
    ∧ z.stdOffset < z.stdOffset + z.dstShift := by
  refine ⟨?_, by omega⟩
  rw [compute_jd_ut_with_timezone, hd, ht, hz]
  simp [hv, localizeNone, localizeFlag, hstd, hdst]

/-- C2 witness: 2023-11-05 01:30 in `America/New_York` falls in the
repeated fall-back hour and resolves to the standard offset −300. -/
theorem ambiguous_time_resolves_to_standard_witness :
    parseDate "2023-11-05" = some (2023, 11, 5)
    ∧ parseTime "01:30" = some (1, 30)
    ∧ validStd nyZone2023 (naiveMinutes 2023 11 5 1 30) = true
    ∧ validDst nyZone2023 (naiveMinutes 2023 11 5 1 30) = true
    ∧ compute_jd_ut_with_timezone nyCollab "2023-11-05" "01:30" 40 (-74) none
      = .ok (jdOfUtcMin nyCollab (naiveMinutes 2023 11 5 1 30 - nyZone2023.stdOffset),
             (nyZone2023.stdOffset : ℚ), nyZone2023.name) :=
  ⟨by decide, by decide, by decide, by decide,
   (ambiguous_time_resolves_to_standard nyCollab nyZone2023
      "2023-11-05" "01:30" 2023 11 5 1 30 40 (-74) none
      (by decide) (by decide) rfl (by decide) (by decide) (by decide)
      (by decide)).1⟩

/-- C1 (bug evidence): 2023-03-12 02:30 in `America/New_York` falls in the
skipped spring-forward hour (neither the standard nor the daylight reading
is consistent), and `compute_jd_ut_with_timezone` raises `NameError`
instead of returning a Julian Day: the `NonExistentTimeError` handler at
server.py line 123 evaluates `timedelta`, which is never imported (line 8
imports only `datetime`). -/
theorem gap_time_raises_nameerror :
    validStd nyZone2023 (naiveMinutes 2023 3 12 2 30) = false
    ∧ validDst nyZone2023 (naiveMinutes 2023 3 12 2 30) = false
    ∧ compute_jd_ut_with_timezone nyCollab "2023-03-12" "02:30" 40 (-74) none
        = .error .nameError := by decide

/-- C6: when the coordinate lookup finds no zone, the converter does not
raise: it returns offset `fallback_tz_minutes` (or 0 when none was
supplied) together with the explicit fallback marker zone name, and the
chart request still succeeds. -/
theorem no_zone_falls_back
    (c : Collab) (ds ts : String) (y m d h mi : ℤ) (lat lon : ℚ)
    (fb : Option ℚ)
    (hd : parseDate ds = some (y, m, d))
    (ht : parseTime ts = some (h, mi))
    (hz : c.zoneAt lat lon = none) :
    (∃ jd, compute_jd_ut_with_timezone c ds ts lat lon fb
        = .ok (jd, fb.getD 0, "Etc/UTC (fallback)"))
    ∧ (fb = none → compute_jd_ut_with_timezone c ds ts lat lon fb
        = .ok (c.julday y m d (fallbackHourUt h 0), 0, "Etc/UTC (fallback)"))
    ∧ (chart_natal c ds ts lat lon fb).isOk = true := by
  refine ⟨⟨c.julday y m d (fallbackHourUt h (fb.getD 0)), ?_⟩, ?_, ?_⟩
  · rw [compute_jd_ut_with_timezone, hd, ht, hz]
  · intro hfb
    subst hfb
    rw [compute_jd_ut_with_timezone, hd, ht, hz]
    rfl
  · rw [chart_natal, compute_jd_ut_with_timezone, hd, ht, hz]
    rfl

/-- C6 witness: ocean coordinates with no fallback offset get offset 0 and
the fallback marker; the chart is still produced. -/
theorem no_zone_falls_back_witness :
    parseDate "2000-01-01" = some (2000, 1, 1)
    ∧ parseTime "12:30" = some (12, 30)
    ∧ noZoneCollab.zoneAt 0 0 = none
    ∧ ((∃ jd, compute_jd_ut_with_timezone noZoneCollab "2000-01-01" "12:30" 0 0 none
        = .ok (jd, (none : Option ℚ).getD 0, "Etc/UTC (fallback)"))
    ∧ ((none : Option ℚ) = none →
        compute_jd_ut_with_timezone noZoneCollab "2000-01-01" "12:30" 0 0 none
        = .ok (noZoneCollab.julday 2000 1 1 (fallbackHourUt 12 0), 0,
               "Etc/UTC (fallback)"))
    ∧ (chart_natal noZoneCollab "2000-01-01" "12:30" 0 0 none).isOk = true) :=
  ⟨by decide, by decide, rfl,
   no_zone_falls_back noZoneCollab "2000-01-01" "12:30" 2000 1 1 12 30 0 0 none
     (by decide) (by decide) rfl⟩

/-- C7: on the fixed-offset fallback path the UT hour handed to the
Julian-Day formula is exactly `civilHour - offsetMinutes/60` — no DST table
is consulted — so the resulting Julian Day depends only on the date fields,
the civil hour and the offset (in particular not on the coordinates or the
civil minutes). -/
theorem fallback_jd_is_offset_formula
    (c : Collab) (ds ts : String) (y m d h mi : ℤ) (lat lon : ℚ)
    (fb : Option ℚ)
    (hd : parseDate ds = some (y, m, d))
    (ht : parseTime ts = some (h, mi))
    (hz : c.zoneAt lat lon = none) :
    compute_jd_ut_with_timezone c ds ts lat lon fb
      = .ok (c.julday y m d ((h : ℚ) - (fb.getD 0) / 60), fb.getD 0,
             "Etc/UTC (fallback)") := by
  rw [compute_jd_ut_with_timezone, hd, ht, hz, ← fallbackHourUt_eq]

/-- C7 witness: with a 90-minute fallback offset, the UT hour for civil
hour 12 is `12 - 90/60`. -/
theorem fallback_jd_is_offset_formula_witness :
    parseDate "2000-01-01" = some (2000, 1, 1)
    ∧ parseTime "12:30" = some (12, 30)
    ∧ compute_jd_ut_with_timezone noZoneCollab "2000-01-01" "12:30" 0 0 (some 90)
      = .ok (noZoneCollab.julday 2000 1 1 ((12 : ℚ) - (some (90:ℚ)).getD 0 / 60),
             (some (90:ℚ)).getD 0, "Etc/UTC (fallback)") :=
  ⟨by decide, by decide,
   fallback_jd_is_offset_formula noZoneCollab "2000-01-01" "12:30"
     2000 1 1 12 30 0 0 (some 90) (by decide) (by decide) rfl⟩

/-- C9 (bug evidence): the out-of-range time string `"99:99"` parses
successfully (`int` accepts both components and no range check runs before
the zone lookup), so on the fallback path the request returns a computed
chart built from hour 99, and on the named-zone path the `datetime`
constructor raises an uncaught `ValueError` — in neither case the
structured 400 `MalformedInput` response the spec requires. -/
theorem out_of_range_time_not_rejected :
    parseTime "99:99" = some (99, 99)
    ∧ (chart_natal noZoneCollab "2000-01-01" "99:99" 0 0 none).isOk = true
    ∧ compute_jd_ut_with_timezone nyCollab "2000-01-01" "99:99" 40 (-74) none
        = .error .valueError := by decide

theorem splitOnChar_ne_nil (sep : Char) (cs : List Char) :
    splitOnChar sep cs ≠ [] := by
  induction cs with
  | nil => simp [splitOnChar]
  | cons c rest ih =>
    simp only [splitOnChar]
    cases hr : splitOnChar sep rest with
    | nil => exact absurd hr ih
    | cons g gs => by_cases hc : c = sep <;> simp [hc]

theorem splitOnChar_singleton (sep : Char) :
    ∀ cs a : List Char, splitOnChar sep cs = [a] ↔ cs = a ∧ sep ∉ a := by
  intro cs
  induction cs with
  | nil =>
    intro a
    simp only [splitOnChar, List.cons.injEq, and_true]
    constructor
    · intro ha
      exact ⟨ha, by rw [← ha]; exact List.not_mem_nil sep⟩
    · exact fun hx => hx.1
  | cons c rest ih =>
    intro a
    simp only [splitOnChar]
    cases hr : splitOnChar sep rest with
    | nil => exact absurd hr (splitOnChar_ne_nil sep rest)
    | cons g gs =>
      dsimp only
      by_cases hc : c = sep
      · rw [if_pos hc]
        constructor
        · intro he
          exact absurd he (by simp)
        · rintro ⟨rfl, hna⟩
          exact absurd (show sep ∈ c :: rest by rw [← hc]; exact List.mem_cons_self c rest) hna
      · rw [if_neg hc]
        constructor
        · intro he
          obtain ⟨ha, hgs⟩ := List.cons.inj he
          obtain ⟨hrest, hng⟩ := (ih g).mp (by rw [hr, hgs])
          refine ⟨by rw [← ha, hrest], ?_⟩
          rw [← ha]
          intro hm
          rcases List.mem_cons.mp hm with h | h
          · exact hc h.symm
          · exact hng h
        · rintro ⟨rfl, hna⟩
          have hng : sep ∉ rest := fun hm => hna (List.mem_cons_of_mem _ hm)
          have h2 : splitOnChar sep rest = [rest] := (ih rest).mpr ⟨rfl, hng⟩
          rw [hr] at h2
          obtain ⟨hg, hgs⟩ := List.cons.inj h2
          rw [hg, hgs]

theorem splitOnChar_pair (sep : Char) :
    ∀ cs a b : List Char,
      splitOnChar sep cs = [a, b] ↔
        cs = a ++ sep :: b ∧ sep ∉ a ∧ sep ∉ b := by
  intro cs
  induction cs with
  | nil =>
    intro a b
    constructor
    · intro he
      exact absurd he (by simp [splitOnChar])
    · rintro ⟨he, -⟩
      exact absurd he.symm (by simp)
  | cons c rest ih =>
    intro a b
    simp only [splitOnChar]
    cases hr : splitOnChar sep rest with
    | nil => exact absurd hr (splitOnChar_ne_nil sep rest)
    | cons g gs =>
      dsimp only
      by_cases hc : c = sep
      · rw [if_pos hc]
        constructor
        · intro he
          obtain ⟨ha, hb⟩ := List.cons.inj he
          obtain ⟨hrest, hnb⟩ :=
            (splitOnChar_singleton sep rest b).mp (by rw [hr, hb])
          refine ⟨?_, by rw [← ha]; exact List.not_mem_nil sep, hnb⟩
          rw [← ha, hrest, hc]
          rfl
        · rintro ⟨heq, hna, hnb⟩
          cases a with
          | cons x a' =>
            obtain ⟨hx, -⟩ := List.cons.inj heq
            refine absurd ?_ hna
            rw [← hx, ← hc]
            exact List.mem_cons_self c a'
          | nil =>
            have hrest : rest = b := by
              have h5 := (List.cons.inj heq).2
              simpa using h5
            have h3 : splitOnChar sep rest = [b] :=
              (splitOnChar_singleton sep rest b).mpr ⟨hrest, hnb⟩
            rw [hr] at h3
            obtain ⟨hg, hgs⟩ := List.cons.inj h3
            rw [hg, hgs]
      · rw [if_neg hc]
        constructor
        · intro he
          obtain ⟨ha, hgs⟩ := List.cons.inj he
          obtain ⟨hrest, hng, hnb⟩ := (ih g b).mp (by rw [hr, hgs])
          refine ⟨?_, ?_, hnb⟩
          · rw [← ha, hrest]
            rfl
          · rw [← ha]
            intro hm
            rcases List.mem_cons.mp hm with h | h
            · exact hc h.symm
            · exact hng h
        · rintro ⟨heq, hna, hnb⟩
          cases a with
          | nil =>
            obtain ⟨hcs, -⟩ := List.cons.inj (show c :: rest = sep :: b by simpa using heq)
            exact absurd hcs hc
          | cons x a' =>
            obtain ⟨hcx, hrest⟩ := List.cons.inj heq
            have hna2 : sep ∉ a' := fun hm => hna (List.mem_cons_of_mem _ hm)
            have h4 : splitOnChar sep rest = [a', b] :=
              (ih a' b).mpr ⟨hrest, hna2, hnb⟩
            rw [hr] at h4
            obtain ⟨hga, hgs⟩ := List.cons.inj h4
            rw [hga, hgs, hcx]

/-- C8 counterexample: a `.`-separated time is rejected (Python `int` fails
on `"12.30"` since the string is split only on `:`), and a time carrying a
seconds component is rejected too (three components cannot unpack into
`hour, minute`). -/
theorem dot_separator_and_seconds_rejected :
    parseTime "12.30" = none ∧ parseTime "12:30:45" = none := by decide

/-- C8 amended: the time parser accepts exactly the strings made of two
`:`-separated components, each a Python `int`; `.` is not accepted as a
separator, and no seconds component exists (rather than defaulting to 0,
a third component is rejected). -/
theorem parseTime_accepts_exactly_colon_pairs (s : String) (h mi : ℤ) :
    parseTime s = some (h, mi) ↔
      ∃ a b : List Char, s.data = a ++ ':' :: b ∧ ':' ∉ a ∧ ':' ∉ b
        ∧ pyInt a = some h ∧ pyInt b = some mi := by
  constructor
  · intro hp
    rw [parseTime] at hp
    rcases hsp : splitOnChar ':' s.data with _ | ⟨a, _ | ⟨b, _ | ⟨c3, t⟩⟩⟩ <;>
      rw [hsp] at hp
    · simp at hp
    · rcases hpa : pyInt a with _ | va <;> simp [hpa] at hp
    · rcases hpa : pyInt a with _ | va <;> rcases hpb : pyInt b with _ | vb <;>
        simp [hpa, hpb] at hp
      obtain ⟨hrest, hna, hnb⟩ := (splitOnChar_pair ':' s.data a b).mp hsp
      exact ⟨a, b, hrest, hna, hnb, by rw [hpa, hp.1], by rw [hpb, hp.2]⟩
    · rcases hpa : pyInt a with _ | va <;> rcases hpb : pyInt b with _ | vb <;>
        rcases hpc : pyInt c3 with _ | vc <;> simp [hpa, hpb, hpc] at hp
  · rintro ⟨a, b, hdata, hna, hnb, hpa, hpb⟩
    have hsp : splitOnChar ':' s.data = [a, b] :=
      (splitOnChar_pair ':' s.data a b).mpr ⟨hdata, hna, hnb⟩
    rw [parseTime, hsp]
    simp [hpa, hpb]

/-- C8 amended witness: `"02:30"` is accepted and decomposes into the two
colon-separated integer components. -/
theorem parseTime_accepts_exactly_colon_pairs_witness :
    ∃ a b : List Char, ("02:30").data = a ++ ':' :: b ∧ ':' ∉ a ∧ ':' ∉ b
      ∧ pyInt a = some 2 ∧ pyInt b = some 30 :=
  (parseTime_accepts_exactly_colon_pairs "02:30" 2 30).mp (by decide)

end Astro
